import Mathlib

/-!
Shallow embedding of the Dev-Tools repository's transformation logic:
the dependency-manifest analyzer (`src/app/components/DependencyChecker.tsx`),
the README composer (`src/app/components/ReadmeGenerator.tsx`) and the
badge catalog (`BadgeSelector.tsx`).

The manifest text is embedded as `Option JVal`: `none` stands for text that
`JSON.parse` rejects, `some v` for text that parses to the JSON value `v`
(`JSON.stringify`/`JSON.parse` round-trip on parse results is the identity,
so re-serialization steps in the source are dropped).  JavaScript runtime
behaviour relevant to the analyzed code paths (truthiness, `Object.entries`,
property access throwing on `null`, `String.prototype.startsWith`) is modelled
explicitly below; every also-thrown `TypeError` is collapsed into the single
`Except Unit` error, matching the single `catch` handler in the source.
-/

namespace DevTools

/-- Model of `String.prototype.startsWith(p)`: the search string is a prefix
of the receiver (spelled out over character lists so that every use is
kernel-computable). -/
def jsStartsWith (s p : String) : Bool :=
  List.isPrefixOf p.toList s.toList

/-- Model of `String.prototype.trim()`: strip whitespace from both ends. -/
def jsTrim (s : String) : String :=
  ⟨((s.toList.dropWhile Char.isWhitespace).reverse.dropWhile Char.isWhitespace).reverse⟩

/-- Split a character list at every occurrence of a separator character,
keeping empty segments, as `String.prototype.split` does. -/
def splitOnChar (c : Char) : List Char → List (List Char)
  | [] => [[]]
  | x :: xs =>
    if x = c then [] :: splitOnChar c xs
    else
      match splitOnChar c xs with
      | [] => [[x]]
      | h :: t => (x :: h) :: t

/-- Model of `String.prototype.split("\n")`. -/
def jsSplitNewline (s : String) : List String :=
  (splitOnChar '\n' s.toList).map (fun l => ⟨l⟩)

/-- A JSON value, as produced by `JSON.parse`.  Objects are association lists
in key order; numbers are modelled as integers (no analyzed code path depends
on fractional values). -/
inductive JVal where
  | null
  | bool (b : Bool)
  | num (n : Int)
  | str (s : String)
  | arr (xs : List JVal)
  | obj (fields : List (String × JVal))
deriving Repr

/-- JavaScript truthiness of a JSON value: `null`, `false`, `0` and `""` are
falsy, every other JSON value (including `{}` and `[]`) is truthy. -/
def JVal.truthy : JVal → Bool
  | .null => false
  | .bool b => b
  | .num n => n != 0
  | .str s => s != ""
  | .arr _ => true
  | .obj _ => true

/-- First-match lookup in an object's field list (JavaScript own-property
lookup; `JSON.parse` never produces duplicate keys). -/
def lookupField : List (String × JVal) → String → Option JVal
  | [], _ => none
  | (k, v) :: rest, key => if k = key then some v else lookupField rest key

/-- Property access `v.key` for the non-index keys the components read
(`name`, `version`, `dependencies`, `devDependencies`, `peerDependencies`):
objects look the key up; strings, arrays, numbers and booleans have no own
property under any of those names, so the access yields `undefined`
(here `none`). -/
def JVal.propOpt : JVal → String → Option JVal
  | .obj fs, k => lookupField fs k
  | _, _ => none

/-- Property access `v.key` including the JavaScript `TypeError` thrown when
`v` is `null` ("Cannot read properties of null"). -/
def JVal.getProp (v : JVal) (k : String) : Except Unit (Option JVal) :=
  match v with
  | .null => .error ()
  | _ => .ok (v.propOpt k)

/-- `Object.entries(v)` for a truthy `v`: an object's own key-value pairs in
order; an array's index-value pairs; a string's index-character pairs;
numbers and booleans have no own enumerable properties. -/
def JVal.entries : JVal → List (String × JVal)
  | .obj fs => fs
  | .arr xs => xs.enum.map (fun p => (toString p.1, p.2))
  | .str s => s.toList.enum.map (fun p => (toString p.1, .str (String.singleton p.2)))
  | _ => []

/-- `Object.keys(v)` for a truthy `v`. -/
def JVal.keys (v : JVal) : List String := v.entries.map Prod.fst

/-- Whether a JSON value is a string. -/
def JVal.isStr : JVal → Bool
  | .str _ => true
  | _ => false

/-- Whether a JSON value is an object. -/
def JVal.isObj : JVal → Bool
  | .obj _ => true
  | _ => false

/-- The string payload of a JSON string (`""` otherwise; only applied to
values known to be strings). -/
def JVal.strVal : JVal → String
  | .str s => s
  | _ => ""

/-- One dependency record (`Dependency` in `DependencyChecker.tsx`):
package name, version specifier, and the manifest section it came from. -/
structure Dependency where
  name : String
  version : String
  type : String
deriving Repr, DecidableEq

/-- The analysis summary (`DependencyAnalysis` in `DependencyChecker.tsx`). -/
structure DependencyAnalysis where
  total : Nat
  dependencies : Nat
  devDependencies : Nat
  peerDependencies : Nat
  specificVersions : Nat
  rangeVersions : Nat
  latestVersions : Nat
  issues : List String
deriving Repr, DecidableEq

/-- The three version-classification counters threaded through the section
loops (`specificVersions`, `rangeVersions`, `latestVersions` in the source). -/
structure Counts where
  specificVersions : Nat
  rangeVersions : Nat
  latestVersions : Nat
deriving Repr, DecidableEq

/-- How a version string is classified by the analyzer. -/
inductive VersionClass where
  | range
  | latestTag
  | specific
deriving Repr, DecidableEq

/-- The version classification chain from `analyzePackageJson`:
`versionStr.startsWith("^") || versionStr.startsWith("~")` first, then
`versionStr === "latest"`, otherwise a specific (pinned) version. -/
def classifyVersion (v : String) : VersionClass :=
  if jsStartsWith v "^" || jsStartsWith v "~" then .range
  else if v = "latest" then .latestTag
  else .specific

/-- Increment the counter selected by the classification chain. -/
def bump (c : Counts) (v : String) : Counts :=
  match classifyVersion v with
  | .range => { c with rangeVersions := c.rangeVersions + 1 }
  | .latestTag => { c with latestVersions := c.latestVersions + 1 }
  | .specific => { c with specificVersions := c.specificVersions + 1 }

/-- The `Object.entries(...).forEach` body for one manifest section: push a
record, then classify its version.  A non-string version value makes
`versionStr.startsWith` throw a `TypeError` (caught by the single `catch`). -/
def depLoop (t : String) (acc : List Dependency × Counts) :
    List (String × JVal) → Except Unit (List Dependency × Counts)
  | [] => .ok acc
  | (name, ver) :: rest =>
    match ver with
    | .str v => depLoop t (acc.1 ++ [⟨name, v, t⟩], bump acc.2 v) rest
    | _ => .error ()

/-- The entries iterated for one manifest section: `Object.entries` of the
section value when it is present and truthy, nothing otherwise
(the section loop is guarded by `if (parsed.dependencies)` etc.). -/
def sectionEntries : Option JVal → List (String × JVal)
  | some v => if v.truthy then v.entries else []
  | none => []

/-- Process one manifest section, extending the accumulated records and
counters. -/
def sectionFold (acc : List Dependency × Counts) (o : Option JVal) (t : String) :
    Except Unit (List Dependency × Counts) :=
  depLoop t acc (sectionEntries o)

/-- The per-section key count shown in the summary:
`parsed.dependencies ? Object.keys(parsed.dependencies).length : 0`. -/
def sectionKeyCountOf : Option JVal → Nat
  | some v => if v.truthy then v.keys.length else 0
  | none => 0

/-- Truthiness of a possibly-absent value (`undefined` is falsy). -/
def optTruthy (o : Option JVal) : Bool :=
  match o with
  | some v => v.truthy
  | none => false

/-- The fixed deprecated-package list from `analyzePackageJson`. -/
def deprecatedPackages : List String := ["request", "node-uuid", "gulp-util"]

/-- The "latest" warning text. -/
def latestIssueMsg (n : Nat) : String :=
  toString n ++ " package(s) using \"latest\" version (not recommended for production)"

/-- The deprecation warning text. -/
def deprecationMsg (name : String) : String :=
  "\"" ++ name ++ "\" is deprecated and should be replaced"

/-- The body of `analyzePackageJson` after a successful `JSON.parse`:
extract the three sections, classify versions, and build the issue list,
with every thrown `TypeError` collapsed into `Except.error ()`. -/
def analyzePackageJson (parsed : JVal) :
    Except Unit (List Dependency × DependencyAnalysis) := do
  let depsVal ← parsed.getProp "dependencies"
  let acc1 ← sectionFold ([], ⟨0, 0, 0⟩) depsVal "dependencies"
  let devVal ← parsed.getProp "devDependencies"
  let acc2 ← sectionFold acc1 devVal "devDependencies"
  let peerVal ← parsed.getProp "peerDependencies"
  let acc3 ← sectionFold acc2 peerVal "peerDependencies"
  let deps := acc3.1
  let c := acc3.2
  let nameVal ← parsed.getProp "name"
  let versionVal ← parsed.getProp "version"
  let issues : List String := []
  let issues := if c.latestVersions > 0 then issues ++ [latestIssueMsg c.latestVersions] else issues
  let issues := if deps.length = 0 then issues ++ ["No dependencies found"] else issues
  let issues := if !(optTruthy nameVal) then issues ++ ["Package name is missing"] else issues
  let issues := if !(optTruthy versionVal) then issues ++ ["Package version is missing"] else issues
  let issues := deps.foldl
    (fun iss dep =>
      if deprecatedPackages.contains dep.name then iss ++ [deprecationMsg dep.name] else iss)
    issues
  .ok (deps,
    { total := deps.length
      dependencies := sectionKeyCountOf depsVal
      devDependencies := sectionKeyCountOf devVal
      peerDependencies := sectionKeyCountOf peerVal
      specificVersions := c.specificVersions
      rangeVersions := c.rangeVersions
      latestVersions := c.latestVersions
      issues := issues })

/-- The whole `analyze` transformation on manifest text: `none` models text
rejected by `JSON.parse` (the parse exception lands in the same `catch`). -/
def analyze (input : Option JVal) :
    Except Unit (List Dependency × DependencyAnalysis) :=
  match input with
  | none => .error ()
  | some v => analyzePackageJson v

/-- The component state touched by an analysis run: the `dependencies` list
and the `analysis` summary (`null` when no analysis is shown). -/
structure CheckerState where
  dependencies : List Dependency
  analysis : Option DependencyAnalysis
deriving Repr, DecidableEq

/-- One run of `analyzePackageJson` as a state update: on success both state
pieces are set from the result; the `catch` branch sets
`setDependencies([])` and `setAnalysis(null)` regardless of previous state. -/
def runAnalysis (_prev : CheckerState) (input : Option JVal) : CheckerState :=
  match analyze input with
  | .ok (deps, a) => { dependencies := deps, analysis := some a }
  | .error _ => { dependencies := [], analysis := none }

/-- Replace the value stored under a key of an object (the in-place
`parsed.section[key] = "latest"` mutations reflected functionally);
non-objects are left unchanged. -/
def JVal.setProp : JVal → String → JVal → JVal
  | .obj fs, key, v => .obj (fs.map (fun kv => if kv.1 = key then (kv.1, v) else kv))
  | other, _, _ => other

/-- `Object.keys(section).forEach(key => section[key] = "latest")` on a truthy
section value: every object value / array element is overwritten with the
string `"latest"`.  For a non-empty string section the strict-mode assignment
to an index property throws a `TypeError`; `Object.keys` of a number or
boolean is empty, so those are untouched; `Object.keys(null)` would throw but
`null` is falsy and never reaches this function. -/
def setAllLatest : JVal → Except Unit JVal
  | .obj fs => .ok (.obj (fs.map (fun kv => (kv.1, .str "latest"))))
  | .arr xs => .ok (.arr (xs.map (fun _ => .str "latest")))
  | .str s => if s = "" then .ok (.str s) else .error ()
  | .null => .error ()
  | .bool b => .ok (.bool b)
  | .num n => .ok (.num n)

/-- Rewrite one manifest section to all-"latest", guarded by the section's
truthiness, as in `updateToLatestVersions`. -/
def rewriteAt (parsed : JVal) (key : String) : Except Unit JVal := do
  let s ← parsed.getProp key
  match s with
  | some v =>
    if v.truthy then do
      let v2 ← setAllLatest v
      pure (parsed.setProp key v2)
    else pure parsed
  | none => pure parsed

/-- The `updateToLatestVersions` transform: parse, overwrite every version in
each of the three sections with `"latest"`, and return the updated manifest
(the `JSON.stringify`/re-`parse` round-trip is the identity on parse
results, so the serialized output is represented by the value itself). -/
def updateToLatestVersions (input : Option JVal) : Except Unit JVal :=
  match input with
  | none => .error ()
  | some parsed => do
    let p1 ← rewriteAt parsed "dependencies"
    let p2 ← rewriteAt p1 "devDependencies"
    rewriteAt p2 "peerDependencies"

/-- The list of manifest section names, in processing order. -/
def manifestSectionKeys : List String := ["dependencies", "devDependencies", "peerDependencies"]

/-- The dependency records produced from one section's entries (all of whose
values are strings). -/
def mkDeps (t : String) (es : List (String × JVal)) : List Dependency :=
  es.map (fun kv => ⟨kv.1, kv.2.strVal, t⟩)

/-- Number of entries of a section whose version string falls in a given
class. -/
def nClass (cl : VersionClass) (es : List (String × JVal)) : Nat :=
  (es.filter (fun kv => classifyVersion kv.2.strVal == cl)).length

/-- Number of dependency records whose version string falls in a given
class. -/
def countClass (deps : List Dependency) (cl : VersionClass) : Nat :=
  (deps.filter (fun d => classifyVersion d.version == cl)).length

/-- All entry values of a section are strings. -/
def allStrs (es : List (String × JVal)) : Prop :=
  ∀ kv ∈ es, kv.2.isStr = true

@[simp] lemma exceptBind_ok {α β : Type} (a : α) (f : α → Except Unit β) :
    (Except.ok a >>= f) = f a := rfl

@[simp] lemma exceptBind_error {α β : Type} (f : α → Except Unit β) :
    ((Except.error () : Except Unit α) >>= f) = Except.error () := rfl

lemma getProp_ne_null (v : JVal) (k : String) (h : v ≠ .null) :
    v.getProp k = .ok (v.propOpt k) := by
  cases v <;> first | exact absurd rfl h | rfl

@[simp] lemma getProp_null (k : String) : JVal.getProp .null k = .error () := rfl

lemma depLoop_error_iff (t : String) :
    ∀ (es : List (String × JVal)) (acc : List Dependency × Counts),
      depLoop t acc es = .error () ↔ ∃ kv ∈ es, kv.2.isStr = false := by
  intro es
  induction es with
  | nil => intro acc; simp [depLoop]
  | cons kv rest ih =>
    intro acc
    obtain ⟨k, v⟩ := kv
    cases v with
    | str s => simp [depLoop, ih, JVal.isStr]
    | null => simp [depLoop, JVal.isStr]
    | bool b => simp [depLoop, JVal.isStr]
    | num n => simp [depLoop, JVal.isStr]
    | arr xs => simp [depLoop, JVal.isStr]
    | obj fs => simp [depLoop, JVal.isStr]

lemma depLoop_ok_of_all (t : String) :
    ∀ (es : List (String × JVal)) (d : List Dependency) (c : Counts),
      allStrs es →
      depLoop t (d, c) es =
        .ok (d ++ mkDeps t es,
          ⟨c.specificVersions + nClass .specific es,
           c.rangeVersions + nClass .range es,
           c.latestVersions + nClass .latestTag es⟩) := by
  intro es
  induction es with
  | nil => intro d c _; simp [depLoop, mkDeps, nClass]
  | cons kv rest ih =>
    intro d c hall
    obtain ⟨k, v⟩ := kv
    have hv : v.isStr = true := hall (k, v) (List.mem_cons_self _ _)
    cases v with
    | str s =>
      have hrest : allStrs rest := fun kv h => hall kv (List.mem_cons_of_mem _ h)
      rw [depLoop]
      dsimp only
      refine (ih (d ++ [{ name := k, version := s, type := t }]) (bump c s) hrest).trans ?_
      rcases hc : classifyVersion s with _ | _ | _ <;>
        simp [mkDeps, nClass, bump, hc, JVal.strVal, List.filter_cons, List.append_assoc,
          Counts.mk.injEq] <;> omega
    | null => simp [JVal.isStr] at hv
    | bool b => simp [JVal.isStr] at hv
    | num n => simp [JVal.isStr] at hv
    | arr xs => simp [JVal.isStr] at hv
    | obj fs => simp [JVal.isStr] at hv

lemma depLoop_ok_elim {t : String} {es : List (String × JVal)}
    {d : List Dependency} {c : Counts} {r : List Dependency × Counts}
    (h : depLoop t (d, c) es = .ok r) :
    allStrs es ∧
      r = (d ++ mkDeps t es,
        ⟨c.specificVersions + nClass .specific es,
         c.rangeVersions + nClass .range es,
         c.latestVersions + nClass .latestTag es⟩) := by
  have hall : allStrs es := by
    intro kv hm
    by_contra hne
    have hb : kv.2.isStr = false := by
      cases hx : kv.2.isStr
      · rfl
      · exact absurd hx hne
    have : depLoop t (d, c) es = .error () :=
      (depLoop_error_iff t es (d, c)).2 ⟨kv, hm, hb⟩
    rw [this] at h
    exact Except.noConfusion h
  refine ⟨hall, ?_⟩
  rw [depLoop_ok_of_all t es d c hall] at h
  exact (Except.ok.inj h).symm

lemma nClass_total : ∀ es : List (String × JVal),
    nClass .specific es + nClass .range es + nClass .latestTag es = es.length := by
  intro es
  induction es with
  | nil => simp [nClass]
  | cons kv rest ih =>
    rcases hc : classifyVersion kv.2.strVal with _ | _ | _ <;>
      · simp only [nClass, List.filter_cons, hc] at ih ⊢
        simp
        omega

lemma mkDeps_length (t : String) (es : List (String × JVal)) :
    (mkDeps t es).length = es.length := by
  simp [mkDeps]

lemma countClass_mkDeps (t : String) (es : List (String × JVal)) (cl : VersionClass) :
    countClass (mkDeps t es) cl = nClass cl es := by
  induction es with
  | nil => simp [mkDeps, countClass, nClass]
  | cons kv rest ih =>
    simp only [mkDeps, List.map_cons, countClass, nClass, List.filter_cons] at ih ⊢
    dsimp only
    cases h : (classifyVersion kv.2.strVal == cl) <;>
      simpa [h, mkDeps] using ih

lemma countClass_append (d1 d2 : List Dependency) (cl : VersionClass) :
    countClass (d1 ++ d2) cl = countClass d1 cl + countClass d2 cl := by
  simp [countClass, List.filter_append]

lemma sectionFold_ok_elim {acc : List Dependency × Counts} {o : Option JVal}
    {t : String} {r : List Dependency × Counts}
    (h : sectionFold acc o t = .ok r) :
    allStrs (sectionEntries o) ∧
      r = (acc.1 ++ mkDeps t (sectionEntries o),
        ⟨acc.2.specificVersions + nClass .specific (sectionEntries o),
         acc.2.rangeVersions + nClass .range (sectionEntries o),
         acc.2.latestVersions + nClass .latestTag (sectionEntries o)⟩) := by
  obtain ⟨d, c⟩ := acc
  exact depLoop_ok_elim h

lemma sectionFold_error_iff (acc : List Dependency × Counts) (o : Option JVal)
    (t : String) :
    sectionFold acc o t = .error () ↔
      ∃ kv ∈ sectionEntries o, kv.2.isStr = false := by
  obtain ⟨d, c⟩ := acc
  exact depLoop_error_iff t (sectionEntries o) (d, c)

/-- The issue list built by `analyzePackageJson` for a given manifest value,
record list and counters (proof-layer restatement of the let-chain). -/
def issuesFor (parsed : JVal) (deps : List Dependency) (c : Counts) : List String :=
  let issues : List String := []
  let issues := if c.latestVersions > 0 then issues ++ [latestIssueMsg c.latestVersions] else issues
  let issues := if deps.length = 0 then issues ++ ["No dependencies found"] else issues
  let issues :=
    if !(optTruthy (parsed.propOpt "name")) then issues ++ ["Package name is missing"] else issues
  let issues :=
    if !(optTruthy (parsed.propOpt "version")) then issues ++ ["Package version is missing"] else issues
  deps.foldl
    (fun iss dep =>
      if deprecatedPackages.contains dep.name then iss ++ [deprecationMsg dep.name] else iss)
    issues

/-- The summary built by `analyzePackageJson` from the final accumulator
(proof-layer restatement). -/
def mkAnalysis (parsed : JVal) (acc : List Dependency × Counts) : DependencyAnalysis :=
  { total := acc.1.length
    dependencies := sectionKeyCountOf (parsed.propOpt "dependencies")
    devDependencies := sectionKeyCountOf (parsed.propOpt "devDependencies")
    peerDependencies := sectionKeyCountOf (parsed.propOpt "peerDependencies")
    specificVersions := acc.2.specificVersions
    rangeVersions := acc.2.rangeVersions
    latestVersions := acc.2.latestVersions
    issues := issuesFor parsed acc.1 acc.2 }

lemma analyzePackageJson_eq_of {parsed : JVal} (hnn : parsed ≠ .null)
    {acc1 acc2 acc3 : List Dependency × Counts}
    (h1 : sectionFold ([], ⟨0, 0, 0⟩) (parsed.propOpt "dependencies") "dependencies" = .ok acc1)
    (h2 : sectionFold acc1 (parsed.propOpt "devDependencies") "devDependencies" = .ok acc2)
    (h3 : sectionFold acc2 (parsed.propOpt "peerDependencies") "peerDependencies" = .ok acc3) :
    analyzePackageJson parsed = .ok (acc3.1, mkAnalysis parsed acc3) := by
  simp only [analyzePackageJson, getProp_ne_null _ _ hnn, exceptBind_ok, h1, h2, h3]
  rfl

lemma analyzePackageJson_error_iff (parsed : JVal) (hnn : parsed ≠ .null) :
    analyzePackageJson parsed = .error () ↔
      ∃ k ∈ manifestSectionKeys, ∃ kv ∈ sectionEntries (parsed.propOpt k), kv.2.isStr = false := by
  cases hf1 : sectionFold ([], ⟨0, 0, 0⟩) (parsed.propOpt "dependencies") "dependencies" with
  | error u =>
    cases u
    obtain ⟨kv, hm, hb⟩ := (sectionFold_error_iff _ _ _).1 hf1
    constructor
    · intro _
      exact ⟨"dependencies", by simp [manifestSectionKeys], kv, hm, hb⟩
    · intro _
      simp only [analyzePackageJson, getProp_ne_null _ _ hnn, exceptBind_ok, hf1,
        exceptBind_error]
  | ok acc1 =>
    cases hf2 : sectionFold acc1 (parsed.propOpt "devDependencies") "devDependencies" with
    | error u =>
      cases u
      obtain ⟨kv, hm, hb⟩ := (sectionFold_error_iff _ _ _).1 hf2
      constructor
      · intro _
        exact ⟨"devDependencies", by simp [manifestSectionKeys], kv, hm, hb⟩
      · intro _
        simp only [analyzePackageJson, getProp_ne_null _ _ hnn, exceptBind_ok, hf1, hf2,
          exceptBind_error]
    | ok acc2 =>
      cases hf3 : sectionFold acc2 (parsed.propOpt "peerDependencies") "peerDependencies" with
      | error u =>
        cases u
        obtain ⟨kv, hm, hb⟩ := (sectionFold_error_iff _ _ _).1 hf3
        constructor
        · intro _
          exact ⟨"peerDependencies", by simp [manifestSectionKeys], kv, hm, hb⟩
        · intro _
          simp only [analyzePackageJson, getProp_ne_null _ _ hnn, exceptBind_ok, hf1, hf2, hf3,
            exceptBind_error]
      | ok acc3 =>
        rw [analyzePackageJson_eq_of hnn hf1 hf2 hf3]
        constructor
        · intro h
          exact Except.noConfusion h
        · rintro ⟨k, hk, kv, hm, hb⟩
          simp only [manifestSectionKeys, List.mem_cons, List.mem_singleton,
            List.not_mem_nil, or_false] at hk
          rcases hk with rfl | rfl | rfl
          · rw [(sectionFold_error_iff _ _ _).2 ⟨kv, hm, hb⟩] at hf1
            exact Except.noConfusion hf1
          · rw [(sectionFold_error_iff _ _ _).2 ⟨kv, hm, hb⟩] at hf2
            exact Except.noConfusion hf2
          · rw [(sectionFold_error_iff _ _ _).2 ⟨kv, hm, hb⟩] at hf3
            exact Except.noConfusion hf3

lemma analyzePackageJson_null : analyzePackageJson .null = .error () := rfl

lemma runAnalysis_of_error {prev : CheckerState} {input : Option JVal}
    (h : analyze input = .error ()) : runAnalysis prev input = ⟨[], none⟩ := by
  simp [runAnalysis, h]

/-- The entries the analyzer iterates for a given section key of a manifest
value. -/
def entriesAt (parsed : JVal) (k : String) : List (String × JVal) :=
  sectionEntries (parsed.propOpt k)

lemma analyze_ok_elim {input : Option JVal} {deps : List Dependency}
    {a : DependencyAnalysis} (h : analyze input = .ok (deps, a)) :
    ∃ parsed, input = some parsed ∧ parsed ≠ .null ∧
      deps = mkDeps "dependencies" (entriesAt parsed "dependencies")
        ++ mkDeps "devDependencies" (entriesAt parsed "devDependencies")
        ++ mkDeps "peerDependencies" (entriesAt parsed "peerDependencies") ∧
      a = mkAnalysis parsed (deps,
        ⟨nClass .specific (entriesAt parsed "dependencies")
            + nClass .specific (entriesAt parsed "devDependencies")
            + nClass .specific (entriesAt parsed "peerDependencies"),
         nClass .range (entriesAt parsed "dependencies")
            + nClass .range (entriesAt parsed "devDependencies")
            + nClass .range (entriesAt parsed "peerDependencies"),
         nClass .latestTag (entriesAt parsed "dependencies")
            + nClass .latestTag (entriesAt parsed "devDependencies")
            + nClass .latestTag (entriesAt parsed "peerDependencies")⟩) := by
  cases input with
  | none => simp [analyze] at h
  | some parsed =>
    by_cases hnn : parsed = .null
    · rw [hnn] at h
      exact absurd h (by simp [analyze, analyzePackageJson_null])
    · refine ⟨parsed, rfl, hnn, ?_⟩
      rw [show analyze (some parsed) = analyzePackageJson parsed from rfl] at h
      cases hf1 : sectionFold ([], ⟨0, 0, 0⟩) (parsed.propOpt "dependencies") "dependencies" with
      | error u =>
        cases u
        simp only [analyzePackageJson, getProp_ne_null _ _ hnn, exceptBind_ok, hf1,
          exceptBind_error] at h
        exact Except.noConfusion h
      | ok acc1 =>
        cases hf2 : sectionFold acc1 (parsed.propOpt "devDependencies") "devDependencies" with
        | error u =>
          cases u
          simp only [analyzePackageJson, getProp_ne_null _ _ hnn, exceptBind_ok, hf1, hf2,
            exceptBind_error] at h
          exact Except.noConfusion h
        | ok acc2 =>
          cases hf3 : sectionFold acc2 (parsed.propOpt "peerDependencies") "peerDependencies" with
          | error u =>
            cases u
            simp only [analyzePackageJson, getProp_ne_null _ _ hnn, exceptBind_ok, hf1, hf2, hf3,
              exceptBind_error] at h
            exact Except.noConfusion h
          | ok acc3 =>
            rw [analyzePackageJson_eq_of hnn hf1 hf2 hf3] at h
            obtain ⟨hdeps, ha⟩ := Prod.mk.inj (Except.ok.inj h)
            obtain ⟨-, he1⟩ := sectionFold_ok_elim hf1
            obtain ⟨-, he2⟩ := sectionFold_ok_elim hf2
            obtain ⟨-, he3⟩ := sectionFold_ok_elim hf3
            subst he1
            subst he2
            subst he3
            constructor
            · rw [← hdeps]
              simp [entriesAt]
            · rw [← ha, ← hdeps]
              simp only [mkAnalysis, entriesAt]
              congr 1 <;> simp

lemma foldl_deprecated (deps : List Dependency) : ∀ init : List String,
    deps.foldl
      (fun iss dep =>
        if deprecatedPackages.contains dep.name then iss ++ [deprecationMsg dep.name] else iss)
      init
    = init ++ (deps.filter (fun d => deprecatedPackages.contains d.name)).map
        (fun d => deprecationMsg d.name) := by
  induction deps with
  | nil => intro init; simp
  | cons d rest ih =>
    intro init
    simp only [List.foldl_cons, List.filter_cons]
    simp at ih ⊢
    by_cases hd : d.name ∈ deprecatedPackages <;> simp [hd, ih, List.append_assoc]

/-- The example manifest of spec section 8:
`{"name":"x","version":"1.0.0","dependencies":{"react":"^18.2.0","lodash":"4.17.21"},"devDependencies":{}}`. -/
def exampleManifest : JVal := .obj
  [("name", .str "x"), ("version", .str "1.0.0"),
   ("dependencies", .obj [("react", .str "^18.2.0"), ("lodash", .str "4.17.21")]),
   ("devDependencies", .obj [])]

/-- The record list the analyzer produces for `exampleManifest`. -/
def exampleDeps : List Dependency :=
  [⟨"react", "^18.2.0", "dependencies"⟩, ⟨"lodash", "4.17.21", "dependencies"⟩]

/-- The summary the analyzer produces for `exampleManifest`. -/
def exampleAnalysis : DependencyAnalysis := ⟨2, 2, 0, 0, 1, 1, 0, []⟩

/-- The manifest `{"dependencies":{"request":"1.0.0"}}` from the spec's issue
example. -/
def requestManifest : JVal := .obj [("dependencies", .obj [("request", .str "1.0.0")])]

/-- The summary the analyzer produces for `requestManifest`. -/
def requestAnalysis : DependencyAnalysis :=
  ⟨1, 1, 0, 0, 1, 0, 0,
   ["Package name is missing", "Package version is missing",
    "\"request\" is deprecated and should be replaced"]⟩

lemma issuesFor_eq (parsed : JVal) (deps : List Dependency) (c : Counts) :
    issuesFor parsed deps c =
      (if 0 < c.latestVersions then [latestIssueMsg c.latestVersions] else [])
      ++ (if deps.length = 0 then ["No dependencies found"] else [])
      ++ (if !(optTruthy (parsed.propOpt "name")) then ["Package name is missing"] else [])
      ++ (if !(optTruthy (parsed.propOpt "version")) then ["Package version is missing"] else [])
      ++ (deps.filter (fun d => deprecatedPackages.contains d.name)).map
          (fun d => deprecationMsg d.name) := by
  simp only [issuesFor, foldl_deprecated]
  split_ifs <;> simp

/-- C1: for every manifest text that `analyze` accepts, the returned summary
satisfies `specificVersions + rangeVersions + latestVersions == total`, where
`total` is the length of the returned dependency-record list. -/
theorem C1_summary_invariant (input : Option JVal) (deps : List Dependency)
    (a : DependencyAnalysis) (h : analyze input = .ok (deps, a)) :
    a.specificVersions + a.rangeVersions + a.latestVersions = a.total ∧
      a.total = deps.length := by
  obtain ⟨parsed, -, -, hdeps, ha⟩ := analyze_ok_elim h
  have t1 := nClass_total (entriesAt parsed "dependencies")
  have t2 := nClass_total (entriesAt parsed "devDependencies")
  have t3 := nClass_total (entriesAt parsed "peerDependencies")
  have hlen : deps.length =
      (entriesAt parsed "dependencies").length + (entriesAt parsed "devDependencies").length
        + (entriesAt parsed "peerDependencies").length := by
    rw [hdeps]
    simp [mkDeps_length]
    omega
  constructor
  · simp only [ha, mkAnalysis]
    omega
  · rw [ha]
    rfl

/-- Witness for C1 at the spec's example manifest. -/
theorem C1_summary_invariant_witness :
    exampleAnalysis.specificVersions + exampleAnalysis.rangeVersions
        + exampleAnalysis.latestVersions = exampleAnalysis.total ∧
      exampleAnalysis.total = exampleDeps.length :=
  C1_summary_invariant (some exampleManifest) exampleDeps exampleAnalysis rfl

/-- C2 counterexample: the JSON text `5` parses to a non-object top-level
value, yet `analyze` succeeds on it (with an empty record list) instead of
taking the error path, refuting the claim that every non-object top-level
value triggers `ParseError`. -/
theorem C2_nonobject_accepted_counterexample :
    analyze (some (JVal.num 5)) =
      .ok ([], ⟨0, 0, 0, 0, 0, 0, 0,
        ["No dependencies found", "Package name is missing", "Package version is missing"]⟩) ∧
      (JVal.num 5).isObj = false :=
  ⟨rfl, rfl⟩

/-- C2 (amended): `analyze` fails exactly when the input text is not valid
JSON, or parses to JSON `null` (whose property access throws), or some
present-and-truthy dependency section has an entry whose value is not a
string; non-null non-object top-level values (numbers, strings, booleans,
arrays) are accepted. -/
theorem C2_parse_error_characterization (input : Option JVal) :
    analyze input = .error () ↔
      input = none ∨ input = some JVal.null ∨
        ∃ parsed, input = some parsed ∧
          ∃ k ∈ manifestSectionKeys,
            ∃ kv ∈ sectionEntries (parsed.propOpt k), kv.2.isStr = false := by
  cases input with
  | none => simp [analyze]
  | some parsed =>
    by_cases hnn : parsed = .null
    · subst hnn
      simp [analyze, analyzePackageJson_null]
    · rw [show analyze (some parsed) = analyzePackageJson parsed from rfl,
        analyzePackageJson_error_iff parsed hnn]
      constructor
      · rintro ⟨k, hk, kv, hm, hb⟩
        exact Or.inr (Or.inr ⟨parsed, rfl, k, hk, kv, hm, hb⟩)
      · rintro (h | h | ⟨p2, hp2, k, hk, kv, hm, hb⟩)
        · exact Option.noConfusion h
        · exact absurd (Option.some.inj h) hnn
        · obtain rfl : parsed = p2 := Option.some.inj hp2
          exact ⟨k, hk, kv, hm, hb⟩

/-- C4 counterexample: the manifest `{"name":"","version":"1.0.0",
"dependencies":{"lodash":"1.0.0"}}` has a `name` field, yet the analyzer
emits "Package name is missing" (the source checks `!parsed.name`, i.e.
falsiness, not field absence). -/
theorem C4_falsy_name_counterexample :
    JVal.propOpt (JVal.obj
      [("name", .str ""), ("version", .str "1.0.0"),
       ("dependencies", .obj [("lodash", .str "1.0.0")])]) "name" = some (JVal.str "") ∧
    analyze (some (JVal.obj
      [("name", .str ""), ("version", .str "1.0.0"),
       ("dependencies", .obj [("lodash", .str "1.0.0")])])) =
      .ok ([⟨"lodash", "1.0.0", "dependencies"⟩],
        ⟨1, 1, 0, 0, 1, 0, 0, ["Package name is missing"]⟩) :=
  ⟨rfl, rfl⟩

/-- C4 (amended): the issue list of an accepted analysis is appended in this
fixed order, each entry present exactly when its condition holds: the
latest-version warning when `latestVersions > 0`, then "No dependencies
found" when the record list is empty, then "Package name is missing" when
the manifest's `name` field is absent or falsy (e.g. the empty string), then
"Package version is missing" when its `version` field is absent or falsy,
then one deprecation message per record whose name is in
{request, node-uuid, gulp-util}, in record order. -/
theorem C4_issue_order (parsed : JVal) (deps : List Dependency)
    (a : DependencyAnalysis) (h : analyze (some parsed) = .ok (deps, a)) :
    a.issues =
      (if 0 < a.latestVersions then [latestIssueMsg a.latestVersions] else [])
      ++ (if deps.length = 0 then ["No dependencies found"] else [])
      ++ (if !(optTruthy (parsed.propOpt "name")) then ["Package name is missing"] else [])
      ++ (if !(optTruthy (parsed.propOpt "version")) then ["Package version is missing"] else [])
      ++ (deps.filter (fun d => deprecatedPackages.contains d.name)).map
          (fun d => deprecationMsg d.name) := by
  obtain ⟨p2, heq, -, hdeps, ha⟩ := analyze_ok_elim h
  obtain rfl : parsed = p2 := Option.some.inj heq
  rw [ha]
  simp only [mkAnalysis]
  rw [issuesFor_eq]

/-- Witness for C4 at the spec's example `{"dependencies":{"request":"1.0.0"}}`:
the characterization applies, and the resulting issue list is exactly the
missing-name, missing-version and request-deprecation messages in order. -/
theorem C4_issue_order_witness :
    (requestAnalysis.issues =
      (if 0 < requestAnalysis.latestVersions
        then [latestIssueMsg requestAnalysis.latestVersions] else [])
      ++ (if ([⟨"request", "1.0.0", "dependencies"⟩] : List Dependency).length = 0
          then ["No dependencies found"] else [])
      ++ (if !(optTruthy (requestManifest.propOpt "name"))
          then ["Package name is missing"] else [])
      ++ (if !(optTruthy (requestManifest.propOpt "version"))
          then ["Package version is missing"] else [])
      ++ (([⟨"request", "1.0.0", "dependencies"⟩] : List Dependency).filter
            (fun d => deprecatedPackages.contains d.name)).map
          (fun d => deprecationMsg d.name)) ∧
    requestAnalysis.issues =
      ["Package name is missing", "Package version is missing",
       "\"request\" is deprecated and should be replaced"] :=
  ⟨C4_issue_order requestManifest [⟨"request", "1.0.0", "dependencies"⟩] requestAnalysis rfl,
   rfl⟩

/-- C5: every version string is classified into exactly one of three classes
by the analyzer's chain: range-qualified when it starts with a caret or
tilde, latest-tagged when it is exactly "latest" (and not range-qualified),
pinned/specific otherwise; in particular "^latest" is range-qualified and
"latest" counts only toward the latest class; accordingly the summary's
three counters count the records of each class. -/
theorem C5_version_classification :
    (∀ v : String,
      (classifyVersion v = .range ↔ (jsStartsWith v "^" || jsStartsWith v "~") = true) ∧
      (classifyVersion v = .latestTag ↔
        ((jsStartsWith v "^" || jsStartsWith v "~") = false ∧ v = "latest")) ∧
      (classifyVersion v = .specific ↔
        ((jsStartsWith v "^" || jsStartsWith v "~") = false ∧ v ≠ "latest"))) ∧
    classifyVersion "^latest" = .range ∧
    classifyVersion "latest" = .latestTag ∧
    (∀ (input : Option JVal) (deps : List Dependency) (a : DependencyAnalysis),
      analyze input = .ok (deps, a) →
        a.rangeVersions = countClass deps .range ∧
        a.latestVersions = countClass deps .latestTag ∧
        a.specificVersions = countClass deps .specific) := by
  refine ⟨?_, rfl, rfl, ?_⟩
  · intro v
    cases hb : (jsStartsWith v "^" || jsStartsWith v "~") with
    | false =>
      have hcl : classifyVersion v = (if v = "latest" then .latestTag else .specific) := by
        rw [classifyVersion, if_neg (by simp [hb])]
      by_cases h2 : v = "latest"
      · rw [if_pos h2] at hcl
        refine ⟨?_, ?_, ?_⟩
        · rw [hcl]
          constructor
          · intro hx; exact VersionClass.noConfusion hx
          · intro hx; exact Bool.noConfusion hx
        · rw [hcl]
          exact ⟨fun _ => ⟨rfl, h2⟩, fun _ => rfl⟩
        · rw [hcl]
          constructor
          · intro hx; exact VersionClass.noConfusion hx
          · rintro ⟨-, hne⟩; exact absurd h2 hne
      · rw [if_neg h2] at hcl
        refine ⟨?_, ?_, ?_⟩
        · rw [hcl]
          constructor
          · intro hx; exact VersionClass.noConfusion hx
          · intro hx; exact Bool.noConfusion hx
        · rw [hcl]
          constructor
          · intro hx; exact VersionClass.noConfusion hx
          · rintro ⟨-, he⟩; exact absurd he h2
        · rw [hcl]
          exact ⟨fun _ => ⟨rfl, h2⟩, fun _ => rfl⟩
    | true =>
      have hcl : classifyVersion v = .range := by
        rw [classifyVersion, if_pos hb]
      refine ⟨?_, ?_, ?_⟩
      · rw [hcl]
        exact ⟨fun _ => rfl, fun _ => rfl⟩
      · rw [hcl]
        constructor
        · intro hx; exact VersionClass.noConfusion hx
        · rintro ⟨hf, -⟩; exact Bool.noConfusion hf
      · rw [hcl]
        constructor
        · intro hx; exact VersionClass.noConfusion hx
        · rintro ⟨hf, -⟩; exact Bool.noConfusion hf
  · intro input deps a h
    obtain ⟨parsed, -, -, hdeps, ha⟩ := analyze_ok_elim h
    refine ⟨?_, ?_, ?_⟩ <;>
      simp [ha, mkAnalysis, hdeps, countClass_append, countClass_mkDeps] <;> omega

/-- Witness for C5's count characterization at the spec's example manifest. -/
theorem C5_version_classification_witness :
    exampleAnalysis.rangeVersions = countClass exampleDeps .range ∧
    exampleAnalysis.latestVersions = countClass exampleDeps .latestTag ∧
    exampleAnalysis.specificVersions = countClass exampleDeps .specific :=
  C5_version_classification.2.2.2 (some exampleManifest) exampleDeps exampleAnalysis rfl

/-- C6: when `analyze` fails, the resulting component state holds no records
and no summary, regardless of what was previously displayed (the `catch`
branch sets the list to `[]` and the summary to `null`).  Unparseable text
such as `"{not json"` is modelled by the `none` input. -/
theorem C6_error_clears_state (prev : CheckerState) (input : Option JVal)
    (h : analyze input = .error ()) :
    runAnalysis prev input = ⟨[], none⟩ :=
  runAnalysis_of_error h

/-- Witness for C6: malformed input (modelled by `none`) wipes a previously
populated state. -/
theorem C6_error_clears_state_witness :
    runAnalysis ⟨[⟨"react", "^18.2.0", "dependencies"⟩], some ⟨1, 1, 0, 0, 0, 1, 0, []⟩⟩ none
      = ⟨[], none⟩ :=
  C6_error_clears_state ⟨[⟨"react", "^18.2.0", "dependencies"⟩], some ⟨1, 1, 0, 0, 0, 1, 0, []⟩⟩
    none rfl

/-- C10: a manifest object one of whose dependency sections maps some package
name to a non-string value makes the whole analysis fail through the single
catch handler (no partial result), and the state is cleared. -/
theorem C10_nonstring_version_fails (fs : List (String × JVal)) (key : String)
    (kv : String × JVal) (prev : CheckerState)
    (hkey : key ∈ manifestSectionKeys)
    (hmem : kv ∈ sectionEntries ((JVal.obj fs).propOpt key))
    (hbad : kv.2.isStr = false) :
    analyze (some (JVal.obj fs)) = .error () ∧
      runAnalysis prev (some (JVal.obj fs)) = ⟨[], none⟩ := by
  have herr : analyze (some (JVal.obj fs)) = .error () := by
    rw [show analyze (some (JVal.obj fs)) = analyzePackageJson (JVal.obj fs) from rfl]
    exact (analyzePackageJson_error_iff _ (fun hc => JVal.noConfusion hc)).2
      ⟨key, hkey, kv, hmem, hbad⟩
  exact ⟨herr, runAnalysis_of_error herr⟩

lemma lookupField_replace_self (fs : List (String × JVal)) (k : String) (v : JVal) :
    lookupField (fs.map (fun kv => if kv.1 = k then (kv.1, v) else kv)) k =
      (lookupField fs k).map (fun _ => v) := by
  induction fs with
  | nil => rfl
  | cons kv rest ih =>
    simp only [List.map_cons]
    by_cases hk : kv.1 = k
    · rw [if_pos hk]
      simp [lookupField, hk, ih]
    · rw [if_neg hk]
      simp [lookupField, hk, ih]

lemma lookupField_replace_ne (fs : List (String × JVal)) (k k' : String) (v : JVal)
    (h : k' ≠ k) :
    lookupField (fs.map (fun kv => if kv.1 = k then (kv.1, v) else kv)) k' =
      lookupField fs k' := by
  induction fs with
  | nil => rfl
  | cons kv rest ih =>
    simp only [List.map_cons]
    by_cases hk : kv.1 = k
    · have hne : kv.1 ≠ k' := by rw [hk]; exact Ne.symm h
      rw [if_pos hk]
      simp [lookupField, hk, hne, ih, Ne.symm h]
    · rw [if_neg hk]
      simp [lookupField, ih]

lemma propOpt_setProp_self (p : JVal) (k : String) (v : JVal) :
    (p.setProp k v).propOpt k = (p.propOpt k).map (fun _ => v) := by
  cases p <;> simp [JVal.setProp, JVal.propOpt, lookupField_replace_self]

lemma propOpt_setProp_ne (p : JVal) (k k' : String) (v : JVal) (h : k' ≠ k) :
    (p.setProp k v).propOpt k' = p.propOpt k' := by
  cases p <;> simp [JVal.setProp, JVal.propOpt, lookupField_replace_ne _ _ _ _ h]

lemma setProp_ne_null {p : JVal} (h : p ≠ .null) (k : String) (v : JVal) :
    p.setProp k v ≠ .null := by
  cases p <;> first | exact absurd rfl h | simp [JVal.setProp]

lemma rewriteAt_ok_elim {p : JVal} {k : String} {p' : JVal}
    (h : rewriteAt p k = .ok p') :
    p ≠ .null ∧
      ((p' = p ∧ sectionEntries (p.propOpt k) = []) ∨
        ∃ v v2, p.propOpt k = some v ∧ v.truthy = true ∧ setAllLatest v = .ok v2 ∧
          p' = p.setProp k v2) := by
  by_cases hnn : p = .null
  · subst hnn
    simp only [rewriteAt, getProp_null, exceptBind_error] at h
    exact Except.noConfusion h
  · refine ⟨hnn, ?_⟩
    unfold rewriteAt at h
    rw [getProp_ne_null _ _ hnn] at h
    simp only [exceptBind_ok] at h
    cases hp : p.propOpt k with
    | none =>
      rw [hp] at h
      exact Or.inl ⟨(Except.ok.inj h).symm, rfl⟩
    | some v =>
      rw [hp] at h
      cases htr : v.truthy with
      | false =>
        simp only [htr, Bool.false_eq_true, if_false] at h
        exact Or.inl ⟨(Except.ok.inj h).symm, by simp [sectionEntries, htr]⟩
      | true =>
        simp only [htr, if_true] at h
        cases hs : setAllLatest v with
        | error u =>
          cases u
          rw [hs] at h
          simp only [exceptBind_error] at h
          exact Except.noConfusion h
        | ok v2 =>
          rw [hs] at h
          simp only [exceptBind_ok] at h
          exact Or.inr ⟨v, v2, rfl, htr, hs, (Except.ok.inj h).symm⟩

lemma entries_arr_snd_mem {kv : String × JVal} {xs : List JVal}
    (h : kv ∈ JVal.entries (.arr xs)) : kv.2 ∈ xs := by
  have h2 : kv ∈ xs.enum.map (fun p => (toString p.1, p.2)) := h
  obtain ⟨q, hq, hkv⟩ := List.mem_map.1 h2
  rw [← hkv]
  exact List.snd_mem_of_mem_enum hq

lemma setAllLatest_all_latest {v v2 : JVal} (hs : setAllLatest v = .ok v2)
    (htr : v.truthy = true) :
    ∀ kv ∈ sectionEntries (some v2), kv.2 = .str "latest" := by
  cases v with
  | obj fs =>
    obtain rfl : JVal.obj (fs.map fun kv => (kv.1, .str "latest")) = v2 :=
      Except.ok.inj hs
    intro kv hm
    have hm2 : kv ∈ fs.map fun kv => (kv.1, JVal.str "latest") := by
      simpa [sectionEntries, JVal.truthy, JVal.entries] using hm
    obtain ⟨q, -, hkv⟩ := List.mem_map.1 hm2
    rw [← hkv]
  | arr xs =>
    obtain rfl : JVal.arr (xs.map fun _ => .str "latest") = v2 := Except.ok.inj hs
    intro kv hm
    have hm2 : kv ∈ JVal.entries (.arr (xs.map fun _ => JVal.str "latest")) := by
      simpa [sectionEntries, JVal.truthy] using hm
    have := entries_arr_snd_mem hm2
    obtain ⟨-, -, hkv⟩ := List.mem_map.1 this
    exact hkv.symm
  | str s =>
    by_cases he : s = ""
    · subst he
      simp [JVal.truthy] at htr
    · simp only [setAllLatest, he, if_false] at hs
      exact Except.noConfusion hs
  | null => simp [JVal.truthy] at htr
  | bool b =>
    obtain rfl : JVal.bool b = v2 := Except.ok.inj hs
    intro kv hm
    simp [sectionEntries, JVal.entries] at hm
  | num n =>
    obtain rfl : JVal.num n = v2 := Except.ok.inj hs
    intro kv hm
    simp [sectionEntries, JVal.entries] at hm

lemma rewriteAt_section_latest {p : JVal} {k : String} {p' : JVal}
    (h : rewriteAt p k = .ok p') :
    ∀ kv ∈ sectionEntries (p'.propOpt k), kv.2 = .str "latest" := by
  obtain ⟨hnn, hcase⟩ := rewriteAt_ok_elim h
  rcases hcase with ⟨rfl, hempty⟩ | ⟨v, v2, hp, htr, hs, rfl⟩
  · rw [hempty]
    intro kv hm
    exact absurd hm (List.not_mem_nil kv)
  · rw [propOpt_setProp_self, hp]
    exact setAllLatest_all_latest hs htr

lemma rewriteAt_preserves_ne {p : JVal} {k : String} {p' : JVal} {k' : String}
    (h : rewriteAt p k = .ok p') (hne : k' ≠ k) :
    p'.propOpt k' = p.propOpt k' := by
  obtain ⟨-, hcase⟩ := rewriteAt_ok_elim h
  rcases hcase with ⟨rfl, -⟩ | ⟨v, v2, -, -, -, rfl⟩
  · rfl
  · exact propOpt_setProp_ne p k k' v2 hne

lemma rewriteAt_ne_null {p : JVal} {k : String} {p' : JVal}
    (h : rewriteAt p k = .ok p') : p' ≠ .null := by
  obtain ⟨hnn, hcase⟩ := rewriteAt_ok_elim h
  rcases hcase with ⟨rfl, -⟩ | ⟨v, v2, -, -, -, rfl⟩
  · exact hnn
  · exact setProp_ne_null hnn k v2

lemma depLoop_all_latest (t : String) :
    ∀ (es : List (String × JVal)) (d : List Dependency) (c : Counts),
      (∀ kv ∈ es, kv.2 = .str "latest") →
      depLoop t (d, c) es =
        .ok (d ++ mkDeps t es,
          ⟨c.specificVersions, c.rangeVersions, c.latestVersions + es.length⟩) := by
  intro es
  induction es with
  | nil => intro d c _; simp [depLoop, mkDeps]
  | cons kv rest ih =>
    intro d c hall
    obtain ⟨k, v⟩ := kv
    obtain rfl : v = .str "latest" := hall (k, v) (List.mem_cons_self _ _)
    have hrest := fun kv h => hall kv (List.mem_cons_of_mem _ h)
    rw [depLoop]
    dsimp only
    rw [show bump c "latest" = { c with latestVersions := c.latestVersions + 1 } from rfl]
    refine (ih (d ++ [{ name := k, version := "latest", type := t }])
      { c with latestVersions := c.latestVersions + 1 } hrest).trans ?_
    simp [mkDeps, JVal.strVal, List.append_assoc, Counts.mk.injEq]
    omega

/-- C3: running the update-to-latest transform on a manifest that `analyze`
accepts and re-running `analyze` on its output yields a summary with
`latestVersions == total` and `rangeVersions == specificVersions == 0`
(serialization of the rewritten value round-trips, so the output text is
represented by the rewritten value itself). -/
theorem C3_update_then_analyze (input : Option JVal)
    (r : List Dependency × DependencyAnalysis) (m' : JVal)
    (hacc : analyze input = .ok r)
    (hup : updateToLatestVersions input = .ok m') :
    (analyze (some m')).isOk = true ∧
      ∀ (deps' : List Dependency) (a' : DependencyAnalysis),
        analyze (some m') = .ok (deps', a') →
          a'.latestVersions = a'.total ∧ a'.rangeVersions = 0 ∧ a'.specificVersions = 0 := by
  cases input with
  | none => exact absurd hup (by simp [updateToLatestVersions])
  | some parsed =>
    rw [show updateToLatestVersions (some parsed) = (do
      let p1 ← rewriteAt parsed "dependencies"
      let p2 ← rewriteAt p1 "devDependencies"
      rewriteAt p2 "peerDependencies") from rfl] at hup
    cases h1 : rewriteAt parsed "dependencies" with
    | error u =>
      cases u
      rw [h1] at hup
      simp only [exceptBind_error] at hup
      exact Except.noConfusion hup
    | ok p1 =>
      rw [h1] at hup
      simp only [exceptBind_ok] at hup
      cases h2 : rewriteAt p1 "devDependencies" with
      | error u =>
        cases u
        rw [h2] at hup
        simp only [exceptBind_error] at hup
        exact Except.noConfusion hup
      | ok p2 =>
        rw [h2] at hup
        simp only [exceptBind_ok] at hup
        have hL3 := rewriteAt_section_latest hup
        have hL2 : ∀ kv ∈ sectionEntries (m'.propOpt "devDependencies"),
            kv.2 = .str "latest" := by
          rw [rewriteAt_preserves_ne hup (by decide)]
          exact rewriteAt_section_latest h2
        have hL1 : ∀ kv ∈ sectionEntries (m'.propOpt "dependencies"),
            kv.2 = .str "latest" := by
          rw [rewriteAt_preserves_ne hup (by decide),
            rewriteAt_preserves_ne h2 (by decide)]
          exact rewriteAt_section_latest h1
        have hnn := rewriteAt_ne_null hup
        have hf1 := depLoop_all_latest "dependencies"
          (sectionEntries (m'.propOpt "dependencies")) [] ⟨0, 0, 0⟩ hL1
        have hf2 := depLoop_all_latest "devDependencies"
          (sectionEntries (m'.propOpt "devDependencies"))
          ([] ++ mkDeps "dependencies" (sectionEntries (m'.propOpt "dependencies")))
          ⟨0, 0, 0 + (sectionEntries (m'.propOpt "dependencies")).length⟩ hL2
        have hf3 := depLoop_all_latest "peerDependencies"
          (sectionEntries (m'.propOpt "peerDependencies"))
          ([] ++ mkDeps "dependencies" (sectionEntries (m'.propOpt "dependencies"))
            ++ mkDeps "devDependencies" (sectionEntries (m'.propOpt "devDependencies")))
          ⟨0, 0, 0 + (sectionEntries (m'.propOpt "dependencies")).length
            + (sectionEntries (m'.propOpt "devDependencies")).length⟩ hL3
        have hres := analyzePackageJson_eq_of hnn hf1 hf2 hf3
        constructor
        · rw [show analyze (some m') = analyzePackageJson m' from rfl, hres]
          rfl
        · intro deps' a' heq
          rw [show analyze (some m') = analyzePackageJson m' from rfl, hres] at heq
          obtain ⟨hd, ha⟩ := Prod.mk.inj (Except.ok.inj heq)
          rw [← ha]
          refine ⟨?_, rfl, rfl⟩
          simp [mkAnalysis, mkDeps_length]
          omega

/-- Witness for C3: updating the spec's example manifest and re-analyzing
yields a summary whose latest-count equals its total and whose range and
specific counts are zero. -/
theorem C3_update_then_analyze_witness :
    (analyze (some (JVal.obj
      [("name", .str "x"), ("version", .str "1.0.0"),
       ("dependencies", .obj [("react", .str "latest"), ("lodash", .str "latest")]),
       ("devDependencies", .obj [])]))).isOk = true ∧
    ((⟨2, 2, 0, 0, 0, 0, 2,
        ["2 package(s) using \"latest\" version (not recommended for production)"]⟩ :
        DependencyAnalysis).latestVersions =
      (⟨2, 2, 0, 0, 0, 0, 2,
        ["2 package(s) using \"latest\" version (not recommended for production)"]⟩ :
        DependencyAnalysis).total) :=
  ⟨(C3_update_then_analyze (some exampleManifest) (exampleDeps, exampleAnalysis) _ rfl rfl).1,
   ((C3_update_then_analyze (some exampleManifest) (exampleDeps, exampleAnalysis) _ rfl rfl).2
      [⟨"react", "latest", "dependencies"⟩, ⟨"lodash", "latest", "dependencies"⟩] _ rfl).1⟩

/-- Witness for C10 at `{"dependencies":{"a":5}}`. -/
theorem C10_nonstring_version_fails_witness :
    analyze (some (JVal.obj [("dependencies", .obj [("a", JVal.num 5)])])) = .error () ∧
      runAnalysis ⟨[], none⟩ (some (JVal.obj [("dependencies", .obj [("a", JVal.num 5)])]))
        = ⟨[], none⟩ :=
  C10_nonstring_version_fails [("dependencies", .obj [("a", JVal.num 5)])] "dependencies"
    ("a", JVal.num 5) ⟨[], none⟩ (List.mem_cons_self _ _)
    (List.mem_singleton.mpr rfl) rfl

/-- A user-added badge (`Badge` in `BadgeSelector.tsx`); the optional
label/message/color are `undefined` when not supplied (`customLabel ||
undefined` in `addBadge`), modelled as `none`. -/
structure Badge where
  id : String
  type : String
  url : String
  label : Option String
  message : Option String
  color : Option String
deriving Repr, DecidableEq

/-- Characters left unescaped by JavaScript `encodeURIComponent`: ASCII
letters, digits, and the marks `- _ . ! ~ * ' ( )`. -/
def isUnreservedURIChar (c : Char) : Bool :=
  c.isAlphanum || c = '-' || c = '_' || c = '.' || c = '!' || c = '~' || c = '*' ||
    c = '\x27' || c = '(' || c = ')'

/-- Uppercase hexadecimal digit. -/
def hexDigitChar (n : Nat) : Char := "0123456789ABCDEF".toList.getD n 'X'

/-- Percent-encoding of one byte value. -/
def percentEncodeByte (b : Nat) : String :=
  "%" ++ String.singleton (hexDigitChar (b / 16)) ++ String.singleton (hexDigitChar (b % 16))

/-- The UTF-8 byte values of a code point. -/
def utf8ByteVals (n : Nat) : List Nat :=
  if n < 128 then [n]
  else if n < 2048 then [192 + n / 64, 128 + n % 64]
  else if n < 65536 then [224 + n / 4096, 128 + n / 64 % 64, 128 + n % 64]
  else [240 + n / 262144, 128 + n / 4096 % 64, 128 + n / 64 % 64, 128 + n % 64]

/-- Model of the JavaScript builtin `encodeURIComponent`: unreserved
characters are kept, every other character is replaced by the uppercase
percent-encoding of its UTF-8 bytes. -/
def encodeURIComponent (s : String) : String :=
  String.join (s.toList.map (fun c =>
    if isUnreservedURIChar c then String.singleton c
    else String.join ((utf8ByteVals c.toNat).map percentEncodeByte)))

/-- A catalog entry (`BadgeTemplate` in `BadgeSelector.tsx`).  The RegExp
`urlPattern` field, used only by form validation, is not modelled; the
verified properties concern the rendering functions. -/
structure BadgeTemplate where
  type : String
  label : String
  description : String
  urlPlaceholder : String
  urlExample : String
  generateMarkdown : String → Option String → Option String → Option String → String

/-- The fixed badge catalog (`badgeTemplates` in `BadgeSelector.tsx`).
JavaScript default parameters (`label = "label"`, `message = "message"`,
`color = "blue"` on the custom template) apply when the argument is
`undefined`, here `Option.getD`. -/
def badgeTemplates : List BadgeTemplate := [
  { type := "npm-version", label := "NPM Version",
    description := "Shows the current npm package version",
    urlPlaceholder := "package-name", urlExample := "react",
    generateMarkdown := fun url _ _ _ =>
      "![npm](https://img.shields.io/npm/v/" ++ url ++ ")" },
  { type := "npm-downloads", label := "NPM Downloads",
    description := "Shows npm package download count",
    urlPlaceholder := "package-name", urlExample := "react",
    generateMarkdown := fun url _ _ _ =>
      "![npm](https://img.shields.io/npm/dm/" ++ url ++ ")" },
  { type := "github-stars", label := "GitHub Stars",
    description := "Shows GitHub repository stars",
    urlPlaceholder := "username/repo", urlExample := "facebook/react",
    generateMarkdown := fun url _ _ _ =>
      "![GitHub stars](https://img.shields.io/github/stars/" ++ url ++ ")" },
  { type := "github-forks", label := "GitHub Forks",
    description := "Shows GitHub repository forks",
    urlPlaceholder := "username/repo", urlExample := "facebook/react",
    generateMarkdown := fun url _ _ _ =>
      "![GitHub forks](https://img.shields.io/github/forks/" ++ url ++ ")" },
  { type := "github-issues", label := "GitHub Issues",
    description := "Shows open GitHub issues",
    urlPlaceholder := "username/repo", urlExample := "facebook/react",
    generateMarkdown := fun url _ _ _ =>
      "![GitHub issues](https://img.shields.io/github/issues/" ++ url ++ ")" },
  { type := "github-license", label := "GitHub License",
    description := "Shows repository license",
    urlPlaceholder := "username/repo", urlExample := "facebook/react",
    generateMarkdown := fun url _ _ _ =>
      "![GitHub license](https://img.shields.io/github/license/" ++ url ++ ")" },
  { type := "build-status", label := "Build Status",
    description := "Shows CI/CD build status",
    urlPlaceholder := "https://ci-service.com/status-url",
    urlExample := "https://github.com/user/repo/actions",
    generateMarkdown := fun _ _ _ _ =>
      "![Build Status](https://img.shields.io/badge/build-passing-brightgreen)" },
  { type := "coverage", label := "Code Coverage",
    description := "Shows test coverage percentage",
    urlPlaceholder := "https://codecov.io/gh/user/repo",
    urlExample := "https://codecov.io/gh/facebook/react",
    generateMarkdown := fun _ _ _ _ =>
      "![Coverage](https://img.shields.io/badge/coverage-95%25-brightgreen)" },
  { type := "license", label := "License Badge",
    description := "Custom license badge",
    urlPlaceholder := "MIT", urlExample := "MIT",
    generateMarkdown := fun url _ _ _ =>
      "![License](https://img.shields.io/badge/license-" ++ encodeURIComponent url ++ "-blue)" },
  { type := "custom", label := "Custom Badge",
    description := "Create a custom badge with label and message",
    urlPlaceholder := "Enter badge text", urlExample := "custom",
    generateMarkdown := fun _ label message color =>
      "![" ++ label.getD "label" ++ "](https://img.shields.io/badge/"
        ++ encodeURIComponent (label.getD "label") ++ "-"
        ++ encodeURIComponent (message.getD "message") ++ "-" ++ color.getD "blue" ++ ")" }]

/-- `badgeTemplates.find(t => t.type === type)`. -/
def findTemplate (ty : String) : Option BadgeTemplate :=
  badgeTemplates.find? (fun t => t.type == ty)

/-- `generateBadgeMarkdown` from `BadgeSelector.tsx`: render a badge via its
template, or the empty string when the type is unknown. -/
def generateBadgeMarkdown (b : Badge) : String :=
  match findTemplate b.type with
  | none => ""
  | some t => t.generateMarkdown b.url b.label b.message b.color

/-- The editable form state read by `generateReadme` in
`ReadmeGenerator.tsx`. -/
structure ReadmeFields where
  projectName : String
  description : String
  installation : String
  usage : String
  features : String
  selectedLicenses : List String
  author : String
  contributing : String
  badges : List Badge

/-- The `if (projectName) readme += ...` statement of `generateReadme`. -/
def addTitle (f : ReadmeFields) (readme : String) : String :=
  if f.projectName != "" then readme ++ ("# " ++ f.projectName ++ "\n\n") else readme

/-- The badge loop of `generateReadme`: one appended snippet (plus a space)
per badge whose type is in the catalog, then a blank line; skipped when no
badges were added. -/
def addBadges (f : ReadmeFields) (readme : String) : String :=
  if f.badges.length > 0 then
    (f.badges.foldl (fun r b =>
      match findTemplate b.type with
      | some t => r ++ (t.generateMarkdown b.url b.label b.message b.color ++ " ")
      | none => r) readme) ++ "\n\n"
  else readme

/-- The `if (description) readme += ...` statement. -/
def addDescription (f : ReadmeFields) (readme : String) : String :=
  if f.description != "" then
    readme ++ ("## Description\n\n" ++ f.description ++ "\n\n")
  else readme

/-- The features block: header, one `- ` item per non-blank line (each
trimmed), and a closing newline. -/
def addFeatures (f : ReadmeFields) (readme : String) : String :=
  if f.features != "" then
    (((jsSplitNewline f.features).filter (fun l => jsTrim l != "")).foldl
      (fun r l => r ++ ("- " ++ jsTrim l ++ "\n")) (readme ++ "## Features\n\n")) ++ "\n"
  else readme

/-- The installation block, wrapped in a fenced code block. -/
def addInstallation (f : ReadmeFields) (readme : String) : String :=
  if f.installation != "" then
    readme ++ ("## Installation\n\n```bash\n" ++ f.installation ++ "\n```\n\n")
  else readme

/-- The usage block, wrapped in a fenced code block. -/
def addUsage (f : ReadmeFields) (readme : String) : String :=
  if f.usage != "" then
    readme ++ ("## Usage\n\n```bash\n" ++ f.usage ++ "\n```\n\n")
  else readme

/-- The contributing block. -/
def addContributing (f : ReadmeFields) (readme : String) : String :=
  if f.contributing != "" then
    readme ++ ("## Contributing\n\n" ++ f.contributing ++ "\n\n")
  else readme

/-- The license block: single line for exactly one selection, bulleted list
for several, nothing when none selected. -/
def addLicense (f : ReadmeFields) (readme : String) : String :=
  match f.selectedLicenses with
  | [] => readme
  | [l] => readme ++ ("## License\n\n"
      ++ ("This project is licensed under the " ++ l ++ " License.\n\n"))
  | ls => (ls.foldl (fun r l => r ++ ("- " ++ l ++ "\n"))
      (readme ++ ("## License\n\n"
        ++ "This project is licensed under multiple licenses:\n\n"))) ++ "\n"

/-- The `if (author) readme += ...` statement. -/
def addAuthor (f : ReadmeFields) (readme : String) : String :=
  if f.author != "" then readme ++ ("## Author\n\n" ++ f.author ++ "\n") else readme

/-- The section-accumulating body of `generateReadme` (everything before the
final `readme || fallback`): the source's statements applied in order to the
initially empty string. -/
def buildReadme (f : ReadmeFields) : String :=
  addAuthor f (addLicense f (addContributing f (addUsage f (addInstallation f
    (addFeatures f (addDescription f (addBadges f (addTitle f ""))))))))

/-- The fixed fallback document. -/
def placeholderReadme : String := "# My Project\n\nAdd project details to generate README"

/-- The `generateReadme` function of `ReadmeGenerator.tsx`; the final
`return readme || fallback` yields the accumulated text when non-empty and
the fixed placeholder otherwise. -/
def generateReadme (f : ReadmeFields) : String :=
  let readme := buildReadme f
  if readme = "" then placeholderReadme else readme

/-- Title section, present exactly when the project name is non-empty. -/
def titleSection (f : ReadmeFields) : String :=
  if f.projectName != "" then "# " ++ f.projectName ++ "\n\n" else ""

/-- One rendered badge chunk as appended by the badge loop: the template's
markdown plus a trailing space; badges of unknown type contribute nothing. -/
def renderedBadgeChunk (b : Badge) : String :=
  match findTemplate b.type with
  | some t => t.generateMarkdown b.url b.label b.message b.color ++ " "
  | none => ""

/-- Badge section, present exactly when the badge list is non-empty. -/
def badgesSection (f : ReadmeFields) : String :=
  if f.badges.length > 0 then String.join (f.badges.map renderedBadgeChunk) ++ "\n\n" else ""

/-- Description section, present exactly when the description is non-empty. -/
def descriptionSection (f : ReadmeFields) : String :=
  if f.description != "" then "## Description\n\n" ++ f.description ++ "\n\n" else ""

/-- The non-blank lines of the features field, in input order (blank lines
dropped). -/
def featureLines (f : ReadmeFields) : List String :=
  (jsSplitNewline f.features).filter (fun l => jsTrim l != "")

/-- Features section: one markdown list item per non-blank input line. -/
def featuresSection (f : ReadmeFields) : String :=
  if f.features != "" then
    "## Features\n\n"
      ++ String.join ((featureLines f).map (fun l => "- " ++ jsTrim l ++ "\n")) ++ "\n"
  else ""

/-- Installation section, wrapped in a fenced code block. -/
def installationSection (f : ReadmeFields) : String :=
  if f.installation != "" then
    "## Installation\n\n```bash\n" ++ f.installation ++ "\n```\n\n"
  else ""

/-- Usage section, wrapped in a fenced code block. -/
def usageSection (f : ReadmeFields) : String :=
  if f.usage != "" then "## Usage\n\n```bash\n" ++ f.usage ++ "\n```\n\n" else ""

/-- Contributing section. -/
def contributingSection (f : ReadmeFields) : String :=
  if f.contributing != "" then "## Contributing\n\n" ++ f.contributing ++ "\n\n" else ""

/-- License section: a single line when exactly one license is selected, a
bulleted list when more than one, absent when none. -/
def licenseSection (f : ReadmeFields) : String :=
  match f.selectedLicenses with
  | [] => ""
  | [l] => "## License\n\n" ++ ("This project is licensed under the " ++ l ++ " License.\n\n")
  | ls => "## License\n\n" ++ "This project is licensed under multiple licenses:\n\n"
      ++ String.join (ls.map (fun l => "- " ++ l ++ "\n")) ++ "\n"

/-- Author section. -/
def authorSection (f : ReadmeFields) : String :=
  if f.author != "" then "## Author\n\n" ++ f.author ++ "\n" else ""

lemma strJoin_cons (s : String) (l : List String) :
    String.join (s :: l) = s ++ String.join l := by
  apply String.ext
  simp [String.data_join]

lemma foldlAppend {α : Type} (g : α → String) :
    ∀ (l : List α) (init : String),
      List.foldl (fun r x => r ++ g x) init l = init ++ String.join (l.map g) := by
  intro l
  induction l with
  | nil => intro init; simp [String.join]
  | cons a l ih =>
    intro init
    simp only [List.foldl_cons, List.map_cons, strJoin_cons]
    rw [ih, String.append_assoc]

lemma badgeFoldEq : ∀ (l : List Badge) (init : String),
    l.foldl (fun r b =>
      match findTemplate b.type with
      | some t => r ++ (t.generateMarkdown b.url b.label b.message b.color ++ " ")
      | none => r) init
    = init ++ String.join (l.map renderedBadgeChunk) := by
  intro l
  induction l with
  | nil => intro init; simp [String.join]
  | cons b l ih =>
    intro init
    simp only [List.foldl_cons, List.map_cons, strJoin_cons]
    cases hb : findTemplate b.type with
    | none =>
      have hc : renderedBadgeChunk b = "" := by simp [renderedBadgeChunk, hb]
      rw [hc, String.empty_append, ih]
    | some t =>
      have hc : renderedBadgeChunk b
          = t.generateMarkdown b.url b.label b.message b.color ++ " " := by
        simp [renderedBadgeChunk, hb]
      rw [hc, ih, String.append_assoc]

lemma stepIfProp (c : Prop) [Decidable c] (r a : String) :
    (if c then r ++ a else r) = r ++ (if c then a else "") := by
  split <;> simp

lemma stepIfPropNeg (c : Prop) [Decidable c] (r a : String) :
    (if c then r else r ++ a) = r ++ (if c then "" else a) := by
  split <;> simp

lemma addTitle_eq (f : ReadmeFields) (r : String) : addTitle f r = r ++ titleSection f := by
  unfold addTitle titleSection
  split <;> simp

lemma addBadges_eq (f : ReadmeFields) (r : String) : addBadges f r = r ++ badgesSection f := by
  unfold addBadges badgesSection
  by_cases h : f.badges.length > 0
  · rw [if_pos h, if_pos h, badgeFoldEq, String.append_assoc]
  · rw [if_neg h, if_neg h, String.append_empty]

lemma addDescription_eq (f : ReadmeFields) (r : String) :
    addDescription f r = r ++ descriptionSection f := by
  unfold addDescription descriptionSection
  split <;> simp

lemma addFeatures_eq (f : ReadmeFields) (r : String) :
    addFeatures f r = r ++ featuresSection f := by
  unfold addFeatures featuresSection featureLines
  by_cases h : (f.features != "") = true
  · rw [if_pos h, if_pos h, foldlAppend (fun l => "- " ++ jsTrim l ++ "\n")]
    simp [String.append_assoc]
  · rw [if_neg h, if_neg h, String.append_empty]

lemma addInstallation_eq (f : ReadmeFields) (r : String) :
    addInstallation f r = r ++ installationSection f := by
  unfold addInstallation installationSection
  split <;> simp

lemma addUsage_eq (f : ReadmeFields) (r : String) : addUsage f r = r ++ usageSection f := by
  unfold addUsage usageSection
  split <;> simp

lemma addContributing_eq (f : ReadmeFields) (r : String) :
    addContributing f r = r ++ contributingSection f := by
  unfold addContributing contributingSection
  split <;> simp

lemma addLicense_eq (f : ReadmeFields) (r : String) :
    addLicense f r = r ++ licenseSection f := by
  unfold addLicense licenseSection
  rcases f.selectedLicenses with _ | ⟨l1, _ | ⟨l2, lrest⟩⟩
  · simp
  · rfl
  · dsimp only
    rw [foldlAppend (fun l => "- " ++ l ++ "\n")]
    simp [String.append_assoc]

lemma addAuthor_eq (f : ReadmeFields) (r : String) : addAuthor f r = r ++ authorSection f := by
  unfold addAuthor authorSection
  split <;> simp

lemma buildReadme_eq (f : ReadmeFields) :
    buildReadme f = titleSection f ++ badgesSection f ++ descriptionSection f
      ++ featuresSection f ++ installationSection f ++ usageSection f
      ++ contributingSection f ++ licenseSection f ++ authorSection f := by
  simp only [buildReadme, addTitle_eq, addBadges_eq, addDescription_eq, addFeatures_eq,
    addInstallation_eq, addUsage_eq, addContributing_eq, addLicense_eq, addAuthor_eq]
  simp [String.append_assoc, String.empty_append]

/-- C7: the generated README is the concatenation of the fixed-order
sections, each present exactly when its source field is non-empty: title,
badges, description, features (one list item per non-blank input line),
installation and usage in fenced code blocks, contributing, license (single
line when exactly one selected, bulleted list when more), author — followed
by the fallback when everything is empty. -/
theorem C7_section_order (f : ReadmeFields) :
    generateReadme f =
      (if titleSection f ++ badgesSection f ++ descriptionSection f ++ featuresSection f
          ++ installationSection f ++ usageSection f ++ contributingSection f
          ++ licenseSection f ++ authorSection f = ""
        then placeholderReadme
        else titleSection f ++ badgesSection f ++ descriptionSection f ++ featuresSection f
          ++ installationSection f ++ usageSection f ++ contributingSection f
          ++ licenseSection f ++ authorSection f) := by
  rw [show generateReadme f
      = (if buildReadme f = "" then placeholderReadme else buildReadme f) from rfl,
    buildReadme_eq]

/-- C8: `generateReadme` is total and never returns the empty string, and on
an all-empty field set it returns exactly the fixed placeholder document. -/
theorem C8_compose_total :
    (∀ f : ReadmeFields, generateReadme f ≠ "") ∧
      generateReadme ⟨"", "", "", "", "", [], "", "", []⟩ = placeholderReadme := by
  constructor
  · intro f
    rw [show generateReadme f
        = (if buildReadme f = "" then placeholderReadme else buildReadme f) from rfl]
    by_cases h : buildReadme f = ""
    · rw [if_pos h]
      decide
    · rw [if_neg h]
      exact h
  · rfl

/-- C9 counterexample: the build-status template renders the same fixed
string for two different identifiers (and so does not substitute the
identifier into its output), refuting the claim that every non-custom
template embeds the identifier into its URL template. -/
theorem C9_build_status_counterexample :
    generateBadgeMarkdown
        ⟨"1", "build-status", "https://github.com/user/repo/actions", none, none, none⟩
      = "![Build Status](https://img.shields.io/badge/build-passing-brightgreen)" ∧
    generateBadgeMarkdown ⟨"1", "build-status", "https://example.com/other", none, none, none⟩
      = "![Build Status](https://img.shields.io/badge/build-passing-brightgreen)" ∧
    ("https://github.com/user/repo/actions" : String) ≠ "https://example.com/other" :=
  ⟨rfl, rfl, by decide⟩

/-- C9 (amended): only the custom template's render function uses the label,
message and color arguments; every other template ignores them; of those,
the npm and GitHub templates embed exactly the identifier into a fixed
badge-image-service URL, the license template embeds the URI-encoded
identifier, and the build-status and coverage templates render fixed
constant strings that ignore the identifier as well; the custom template
ignores the identifier and uses only label/message/color (with defaults). -/
theorem C9_badge_rendering (i url : String) (l m c : Option String) :
    generateBadgeMarkdown ⟨i, "npm-version", url, l, m, c⟩
        = "![npm](https://img.shields.io/npm/v/" ++ url ++ ")" ∧
    generateBadgeMarkdown ⟨i, "npm-downloads", url, l, m, c⟩
        = "![npm](https://img.shields.io/npm/dm/" ++ url ++ ")" ∧
    generateBadgeMarkdown ⟨i, "github-stars", url, l, m, c⟩
        = "![GitHub stars](https://img.shields.io/github/stars/" ++ url ++ ")" ∧
    generateBadgeMarkdown ⟨i, "github-forks", url, l, m, c⟩
        = "![GitHub forks](https://img.shields.io/github/forks/" ++ url ++ ")" ∧
    generateBadgeMarkdown ⟨i, "github-issues", url, l, m, c⟩
        = "![GitHub issues](https://img.shields.io/github/issues/" ++ url ++ ")" ∧
    generateBadgeMarkdown ⟨i, "github-license", url, l, m, c⟩
        = "![GitHub license](https://img.shields.io/github/license/" ++ url ++ ")" ∧
    generateBadgeMarkdown ⟨i, "build-status", url, l, m, c⟩
        = "![Build Status](https://img.shields.io/badge/build-passing-brightgreen)" ∧
    generateBadgeMarkdown ⟨i, "coverage", url, l, m, c⟩
        = "![Coverage](https://img.shields.io/badge/coverage-95%25-brightgreen)" ∧
    generateBadgeMarkdown ⟨i, "license", url, l, m, c⟩
        = "![License](https://img.shields.io/badge/license-" ++ encodeURIComponent url ++ "-blue)" ∧
    generateBadgeMarkdown ⟨i, "custom", url, l, m, c⟩
        = "![" ++ l.getD "label" ++ "](https://img.shields.io/badge/"
            ++ encodeURIComponent (l.getD "label") ++ "-"
            ++ encodeURIComponent (m.getD "message") ++ "-" ++ c.getD "blue" ++ ")" :=
  ⟨rfl, rfl, rfl, rfl, rfl, rfl, rfl, rfl, rfl, rfl⟩

end DevTools
